import Mathlib

/-!
Verification development for the document-scanning core of the
`ocr-tesseract-playground` repository.

The TypeScript sources are shallowly embedded:
* floating-point numbers are modelled by `ℚ` (all decisions in the embedded
  code are order comparisons and field arithmetic); the functions that call
  native `Math.sqrt` / `Math.acos` are modelled over `ℝ`;
* JavaScript strings are `List Char`;
* native OpenCV calls (`contourArea`, `approxPolyDP`, `isContourConvex`,
  `minAreaRect`, `findContours`, image preprocessing) are not re-implemented:
  their per-contour return values appear as fields of the `Contour` record,
  and a whole pipeline run that may throw is a `Except PipelineError` value;
* the stateful auto-capture composable is modelled as an explicit transition
  system over its closure state, with emitted worker messages and capture
  callbacks as outputs.
-/

namespace OcrPlayground

/-! ## Masking data model (src/core/masking/types.ts) -/

/-- Document types, in the iteration order of the keyword table of
`documentDetector.ts` (`Object.keys` insertion order):
주민등록증 (resident registration card), 여권 (passport),
운전면허증 (driver's license). -/
inductive DocumentType where
  | juminDeungnokJeung
  | yeogwon
  | unjeonMyeonheoJeung
deriving DecidableEq, Repr, Fintype

/-- Bounding box `{x0, y0, x1, y1}` of an OCR word token. -/
structure BBox where
  x0 : ℚ
  y0 : ℚ
  x1 : ℚ
  y1 : ℚ
deriving DecidableEq, Repr, Inhabited

/-- OCR word token `{text, bbox}`. -/
structure Word where
  text : List Char
  bbox : BBox
deriving DecidableEq, Repr, Inhabited

/-- Sensitive-field pattern. `test` models `regex.test` (the regexes in
`patterns.ts` carry no `g` flag, so `test` is a pure predicate of the
string); `ptype` and `documents` are the metadata fields `type` and
`documents` of the source record. -/
structure Pattern where
  test : List Char → Bool
  blurCount : ℕ
  startIndex : ℕ
  ptype : List Char
  documents : List DocumentType

/-- Mask region `{x, y, w, h}` in frame pixel coordinates. -/
structure MaskRegion where
  x : ℚ
  y : ℚ
  w : ℚ
  h : ℚ
deriving DecidableEq, Repr

/-! ## Masking engine (src/core/masking/utils/maskUtils.ts) -/

/-- `createMaskRegion(text, bbox, pattern)`.  The source's return type is
`MaskRegion | null`, but every path of the body returns a region, so the
embedding returns `MaskRegion` (the caller's `if (region)` check is then
always true, as in the source). -/
def createMaskRegion (text : List Char) (bbox : BBox) (pattern : Pattern) :
    MaskRegion :=
  let totalW := bbox.x1 - bbox.x0
  let charW := totalW / (text.length : ℚ)
  { x := bbox.x0 + charW * (pattern.startIndex : ℚ)
    y := bbox.y0
    w := if pattern.blurCount = 0 then totalW else charW * (pattern.blurCount : ℚ)
    h := bbox.y1 - bbox.y0 }

/-- `canCombineWords(prevWord, currentWord)`: same text line (vertical
centers within 10px) and horizontal gap at most twice the previous token's
average character width. -/
def canCombineWords (prevWord currentWord : Word) : Bool :=
  let yCenter1 := (prevWord.bbox.y0 + prevWord.bbox.y1) / 2
  let yCenter2 := (currentWord.bbox.y0 + currentWord.bbox.y1) / 2
  if 10 < |yCenter1 - yCenter2| then false
  else
    let gap := currentWord.bbox.x0 - prevWord.bbox.x1
    let avgCharWidth := (prevWord.bbox.x1 - prevWord.bbox.x0) / (prevWord.text.length : ℚ)
    decide (gap ≤ avgCharWidth * 2)

/-- `MAX_WORDS_TO_COMBINE` (maskUtils.ts / textUtils.ts). -/
def MAX_WORDS_TO_COMBINE : ℕ := 3

/-- `text.replace(/\s+/g, '')`: strip all whitespace characters. -/
def cleanText (t : List Char) : List Char :=
  t.filter (fun c => !c.isWhitespace)

/-- The mutable locals of the `combineWords` loop.  `combined` and
`stopped` are ghost fields (not present in the source): `combined` records
the indices of the tokens whose cleaned text was concatenated, `stopped`
records that the loop has exited via `break` (or by running past the end
of the array).  Neither influences the non-ghost fields. -/
structure CombineAcc where
  combinedText : List Char
  combinedBbox : BBox
  isFirstCombine : Bool
  nextIndex : ℕ
  combined : List ℕ
  stopped : Bool
deriving Repr

/-- One iteration (`j`) of the `combineWords` loop body. -/
def combineStep (words : List Word) (startIndex : ℕ) (acc : CombineAcc) (j : ℕ) :
    CombineAcc :=
  if acc.stopped then acc
  else if startIndex + j < words.length then
    let currentWord := words.getD (startIndex + j) default
    -- `if (!currentWord.text || !currentWord.bbox) continue;`
    -- (`bbox` is always present under the `Word` type; `!text` is the
    -- empty string)
    if currentWord.text = [] then acc
    else
      let cleanedText := cleanText currentWord.text
      if acc.isFirstCombine then
        { combinedText := cleanedText
          combinedBbox := currentWord.bbox
          isFirstCombine := false
          nextIndex := startIndex + j
          combined := [startIndex + j]
          stopped := false }
      else if canCombineWords (words.getD (startIndex + j - 1) default) currentWord then
        { combinedText := acc.combinedText ++ cleanedText
          combinedBbox :=
            { acc.combinedBbox with
                x1 := currentWord.bbox.x1
                y0 := min acc.combinedBbox.y0 currentWord.bbox.y0
                y1 := max acc.combinedBbox.y1 currentWord.bbox.y1 }
          isFirstCombine := false
          nextIndex := startIndex + j
          combined := acc.combined ++ [startIndex + j]
          stopped := false }
      else
        { acc with stopped := true }       -- `break`
  else
    { acc with stopped := true }           -- loop condition `startIndex + j < words.length` fails

/-- `combineWords(words, startIndex)`: greedily combine up to
`MAX_WORDS_TO_COMBINE` consecutive tokens starting at `startIndex`. -/
def combineWords (words : List Word) (startIndex : ℕ) : CombineAcc :=
  (List.range MAX_WORDS_TO_COMBINE).foldl (combineStep words startIndex)
    { combinedText := []
      combinedBbox := { x0 := 0, y0 := 0, x1 := 0, y1 := 0 }
      isFirstCombine := true
      nextIndex := startIndex
      combined := []
      stopped := false }

/-- The `findMaskRegions` scan loop; `fuel` bounds the number of
iterations (the loop index strictly increases each iteration, so
`words.length` iterations always suffice and the fuel never runs out
while `i < words.length`). -/
def findMaskRegionsAux (words : List Word) (patterns : List Pattern) :
    ℕ → ℕ → List MaskRegion
  | 0, _ => []
  | fuel + 1, i =>
    if i < words.length then
      let r := combineWords words i
      if r.combinedText = [] then
        findMaskRegionsAux words patterns fuel (i + 1)
      else
        match patterns.find? (fun pat => pat.test r.combinedText) with
        | some p =>
          createMaskRegion r.combinedText r.combinedBbox p ::
            findMaskRegionsAux words patterns fuel (r.nextIndex + 1)
        | none => findMaskRegionsAux words patterns fuel (i + 1)
    else []

/-- `findMaskRegions(words, patterns)`. -/
def findMaskRegions (words : List Word) (patterns : List Pattern) :
    List MaskRegion :=
  findMaskRegionsAux words patterns words.length 0

/-! ## Document classifier (src/core/masking/utils/documentDetector.ts) -/

/-- JavaScript `String.prototype.includes`: substring containment. -/
def strIncludes (s sub : List Char) : Bool :=
  sub.isPrefixOf s ||
    match s with
    | [] => false
    | _ :: t => strIncludes t sub

/-- The scattered fallback: `kw.split('').every((c) => upper.includes(c))`. -/
def scatteredIncludes (s sub : List Char) : Bool :=
  sub.all (fun c => s.contains c)

/-- The keyword table of `detectDocumentType`, in source order. -/
def keywords : DocumentType → List (List Char)
  | .juminDeungnokJeung => ["주민".toList, "등록".toList, "증".toList]
  | .yeogwon => ["PASSPORT".toList, "여권".toList]
  | .unjeonMyeonheoJeung =>
      ["운전".toList, "면허".toList, "증".toList, "운전면허".toList,
       "DRIVER".toList, "LICENSE".toList]

/-- `Object.keys(keywords)` iteration order (string-key insertion order). -/
def documentTypeOrder : List DocumentType :=
  [.juminDeungnokJeung, .yeogwon, .unjeonMyeonheoJeung]

/-- `text.toUpperCase()`, restricted to ASCII case mapping (the keyword
table only contains ASCII-uppercase and Hangul keywords, on which the JS
and ASCII mappings agree). -/
def toUpperJs (text : List Char) : List Char :=
  text.map Char.toUpper

/-- The contribution of one keyword to a document type's score:
`1` for a fully contained keyword, `0.5` for a keyword all of whose
characters appear somewhere in the text, `0` otherwise. -/
def keywordScore (upper kw : List Char) : ℚ :=
  if strIncludes upper kw then 1
  else if scatteredIncludes upper kw then 1 / 2
  else 0

/-- The `reduce` computing one document type's keyword score. -/
def typeScore (upper : List Char) (t : DocumentType) : ℚ :=
  (keywords t).foldl (fun sum kw => sum + keywordScore upper kw) 0

/-- `detectDocumentType(text)`: the type with the strictly highest
positive score, earlier types winning ties. -/
def detectDocumentType (text : List Char) : Option DocumentType :=
  let upper := toUpperJs text
  let r := documentTypeOrder.foldl
    (fun acc t =>
      let score := typeScore upper t
      if acc.1 < score then (score, some t) else acc)
    ((0 : ℚ), (none : Option DocumentType))
  if 0 < r.1 then r.2 else none

/-! ## Detector configuration and scoring (src/core/vision/opencv/idCardDetector.ts) -/

/-- `Required<AutoCaptureOptions>`; the default field values are the
constructor defaults of `IdCardDetector`. -/
structure DetectOptions where
  targetRatio : ℚ := 1586 / 1000
  ratioTolerance : ℚ := 25 / 100
  approxPolyEpsilonFactor : ℚ := 2 / 100
  minAngle : ℚ := 52
  maxAngle : ℚ := 110
  blurKernelSize : ℕ := 5
  cannyThreshold1 : ℚ := 50
  cannyThreshold2 : ℚ := 150
  morphKernelSize : ℕ := 5
  minDetectionScore : ℚ := 18 / 100
  scoreWeightRatio : ℚ := 4 / 10
  scoreWeightAngle : ℚ := 3 / 10
  detectionInterval : ℕ := 150
  consecutiveFrames : ℕ := 5
  debug : Bool := false

/-- `_calculateScore(aspectRatio, angles)`: weighted sum of the
aspect-ratio fitness and the mean corner-angle fitness (the `reduce` is
divided by the constant 4, as in the source). -/
def calculateScore (opts : DetectOptions) (aspectRatio : ℚ) (angles : List ℚ) : ℚ :=
  let ratioDiff := |aspectRatio - opts.targetRatio| / opts.targetRatio
  let ratioScore := max 0 (1 - ratioDiff / opts.ratioTolerance)
  let angleScore :=
    (angles.foldl
      (fun sum angle => sum + max 0 (1 - |angle - 90| / (90 - opts.minAngle))) 0) / 4
  ratioScore * opts.scoreWeightRatio + angleScore * opts.scoreWeightAngle

/-- One contour of `_findBestCandidate`'s loop, abstracted at the OpenCV
boundary: each field holds the value the corresponding native call
returns for this contour (`contourArea`, `approxPolyDP(...).rows`,
`isContourConvex`, `_getAngles`, `minAreaRect(...).size`). -/
structure Contour where
  area : ℚ
  approxRows : ℕ
  isConvex : Bool
  angles : List ℚ
  rectW : ℚ
  rectH : ℚ
deriving Repr

/-- A detection candidate: the (cloned) approximated contour together
with its score. -/
structure Candidate where
  contour : Contour
  score : ℚ
deriving Repr

/-- `minPixelArea` constant of `_findBestCandidate`. -/
def minPixelArea : ℚ := 1000

/-- The body of `_findBestCandidate`'s contour loop, acting on the
`(bestCandidate, maxScore)` pair. -/
def processContour (opts : DetectOptions) (st : Option Candidate × ℚ)
    (c : Contour) : Option Candidate × ℚ :=
  if c.area < minPixelArea then st
  else if ¬(c.approxRows = 4 ∧ c.isConvex = true) then st
  else if ¬(∀ a ∈ c.angles, opts.minAngle ≤ a ∧ a ≤ opts.maxAngle) then st
  else
    let aspectRatio := max c.rectW c.rectH / min c.rectW c.rectH
    let score := calculateScore opts aspectRatio c.angles
    if st.2 < score then (some { contour := c, score := score }, score) else st

/-- `_findBestCandidate(edges)`, applied to the contour list that
`findContours` extracts, with `maxScore` starting at `-1`. -/
def findBestCandidate (opts : DetectOptions) (cs : List Contour) :
    Option Candidate :=
  (cs.foldl (processContour opts) ((none : Option Candidate), -1)).1

/-- Detection result `{found, candidate?}`. -/
structure DetectionResult where
  found : Bool
  candidate : Option Candidate
deriving Repr

/-- A native pipeline failure (the value thrown by OpenCV). -/
def PipelineError := List Char

/-- `detect(srcMat)`.  The native stages (`_preprocessImage`,
`findContours`, the per-contour native calls) either throw or produce
the contour list; that outcome is the `pipeline` argument.  The `try`
block catches any error, leaving `bestCandidate` undefined, and the
method returns `{found: !!bestCandidate, candidate: bestCandidate}`. -/
def detect (opts : DetectOptions) (pipeline : Except PipelineError (List Contour)) :
    DetectionResult :=
  match pipeline with
  | .error _ => { found := false, candidate := none }
  | .ok contours =>
    match findBestCandidate opts contours with
    | some candidate =>
      if opts.minDetectionScore < candidate.score then
        { found := true, candidate := some candidate }
      else
        { found := false, candidate := none }
    | none => { found := false, candidate := none }

/-! ## Corner angles (`_getAngles`), over ℝ (native `Math.sqrt` / `Math.acos`) -/

open scoped Classical in
/-- The body of `_getAngles`'s loop: the angle at vertex `p2` between
its neighbours `p1` and `p3`, with a zero-length edge yielding `0` and
the cosine clamped into `[-1, 1]` before `Math.acos`; converted from
radians to degrees. -/
noncomputable def cornerAngle (p1 p2 p3 : ℤ × ℤ) : ℝ :=
  if Real.sqrt (((p1.1 : ℝ) - (p2.1 : ℝ)) * ((p1.1 : ℝ) - (p2.1 : ℝ)) +
        ((p1.2 : ℝ) - (p2.2 : ℝ)) * ((p1.2 : ℝ) - (p2.2 : ℝ))) *
      Real.sqrt (((p3.1 : ℝ) - (p2.1 : ℝ)) * ((p3.1 : ℝ) - (p2.1 : ℝ)) +
        ((p3.2 : ℝ) - (p2.2 : ℝ)) * ((p3.2 : ℝ) - (p2.2 : ℝ))) = 0 then 0
  else
    Real.arccos (max (-1) (min 1
      ((((p1.1 : ℝ) - (p2.1 : ℝ)) * ((p3.1 : ℝ) - (p2.1 : ℝ)) +
          ((p1.2 : ℝ) - (p2.2 : ℝ)) * ((p3.2 : ℝ) - (p2.2 : ℝ))) /
        (Real.sqrt (((p1.1 : ℝ) - (p2.1 : ℝ)) * ((p1.1 : ℝ) - (p2.1 : ℝ)) +
            ((p1.2 : ℝ) - (p2.2 : ℝ)) * ((p1.2 : ℝ) - (p2.2 : ℝ))) *
          Real.sqrt (((p3.1 : ℝ) - (p2.1 : ℝ)) * ((p3.1 : ℝ) - (p2.1 : ℝ)) +
            ((p3.2 : ℝ) - (p2.2 : ℝ)) * ((p3.2 : ℝ) - (p2.2 : ℝ)))))))
      * 180 / Real.pi

/-- The angle `_getAngles` pushes at loop index `i`, taken at vertex
`points[(i+1)%4]` between `points[i]` and `points[(i+2)%4]`. -/
noncomputable def angleAt (points : List (ℤ × ℤ)) (i : ℕ) : ℝ :=
  cornerAngle (points.getD i (0, 0)) (points.getD ((i + 1) % 4) (0, 0))
    (points.getD ((i + 2) % 4) (0, 0))

/-- `_getAngles(poly)` for a polygon given by its `data32S` vertex list
(`Int32` coordinates): the four angles pushed by the loop `i = 0..3`. -/
noncomputable def getAngles (points : List (ℤ × ℤ)) : List ℝ :=
  (List.range 4).map (angleAt points)

/-! ## Auto-capture coordinator (src/core/auto-capture/useAutoCapture.ts)

The composable's closure state (`status`, `isProcessing`,
`isTargetDetected`, `worker`, `intervalId`, `consecutiveDetections`) is
modelled as a record, and each entry point (interval tick, worker
message handler, `startDetect`, `stopDetect`) as a step of a transition
system.  Worker `postMessage` calls and `onCapture` invocations are
collected as outputs.  `inFlight` is a ghost field counting `detect`
messages posted to the live worker whose `detection-result` has not yet
been handled; terminating the worker discards its pending replies, so
`stopDetect` resets it to zero, and the environment only delivers a
`detection-result` event while `inFlight` is positive (the worker sends
exactly one reply per request). -/

/-- `AutoCaptureStatus` (src/core/auto-capture/types.ts). -/
inductive AutoCaptureStatus where
  | idle
  | initializing
  | detecting
  | targetFound
  | error
deriving DecidableEq, Repr

/-- The observable condition of `videoRef.value` at an entry point. -/
structure VideoInfo where
  present : Bool
  paused : Bool
  ended : Bool
  videoWidth : ℕ
  videoHeight : ℕ
deriving DecidableEq, Repr

/-- The coordinator's closure state. -/
structure CoordState where
  status : AutoCaptureStatus
  isProcessing : Bool
  isTargetDetected : Bool
  workerAlive : Bool
  intervalActive : Bool
  consecutiveDetections : ℕ
  inFlight : ℕ
deriving DecidableEq, Repr

/-- Configuration destructured from the options
(`detectionInterval = 150`, `consecutiveFrames = 3` by default). -/
structure CoordConfig where
  detectionInterval : ℕ := 150
  consecutiveFrames : ℕ := 3
deriving Repr

/-- Messages and callbacks the coordinator emits. -/
inductive CoordOutput where
  /-- `postMessage({type:'init', ...})` to the freshly created worker. -/
  | initMsg
  /-- `postMessage({type:'detect', ...})` with the downsampled frame
  (width fixed to 480 by `createDetectionCanvas`, height scaled). -/
  | detectMsg (w h : ℕ)
  /-- `onCapture(finalCanvas)` with the full-source-resolution canvas. -/
  | capture (w h : ℕ)
deriving DecidableEq, Repr

/-- Events delivered to the coordinator. -/
inductive CoordEvent where
  | startDetect
  | initDone
  | tick (v : VideoInfo)
  | result (found : Bool) (v : VideoInfo)
  | stopDetect
deriving Repr

/-- The state the composable starts in (`Idle`, nothing running). -/
def initialState : CoordState :=
  { status := .idle
    isProcessing := false
    isTargetDetected := false
    workerAlive := false
    intervalActive := false
    consecutiveDetections := 0
    inFlight := 0 }

/-- `stopDetect()`: clear the interval, terminate the worker, reset all
flags and counters, return to `Idle`.  Terminating the worker discards
any in-flight reply, so the ghost `inFlight` drops to zero. -/
def stopDetectFn (_s : CoordState) : CoordState :=
  initialState

/-- `captureAndStop()`: bail out if the video element is gone (note: the
source then neither captures nor stops); otherwise draw the video at
full source resolution, invoke `onCapture`, and `stopDetect()`. -/
def captureAndStop (s : CoordState) (v : VideoInfo) :
    CoordState × List CoordOutput :=
  if v.present = false then (s, [])
  else (stopDetectFn s, [.capture v.videoWidth v.videoHeight])

/-- `startDetect()`: no-op if a worker already exists, otherwise create
the worker and post the `init` message. -/
def handleStart (s : CoordState) : CoordState × List CoordOutput :=
  if s.workerAlive then (s, [])
  else ({ s with workerAlive := true }, [.initMsg])

/-- The `init-done` branch of the worker `onmessage` handler.  It only
runs while the worker exists (a terminated worker's messages are
dropped). -/
def handleInitDone (s : CoordState) : CoordState × List CoordOutput :=
  if s.workerAlive = false then (s, [])
  else
    ({ s with
        status := .detecting
        isTargetDetected := false
        consecutiveDetections := 0
        intervalActive := true }, [])

/-- `runDetectionFrame()`, run on each interval tick (so only while the
interval is active): skip the tick if the video is unusable or a
detection is still outstanding; otherwise mark `isProcessing`, draw the
downsampled frame (`createDetectionCanvas`: width 480, height
`480 / (videoWidth / videoHeight)`, coerced to an integer by the canvas)
and post it to the worker (`worker.value?.postMessage`: a no-op if the
worker is gone). -/
def handleTick (s : CoordState) (v : VideoInfo) :
    CoordState × List CoordOutput :=
  if s.intervalActive = false then (s, [])
  else if v.present = false ∨ v.paused = true ∨ v.ended = true ∨
      v.videoWidth = 0 ∨ s.isProcessing = true then (s, [])
  else
    let s1 := { s with isProcessing := true }
    if s.workerAlive then
      ({ s1 with inFlight := s.inFlight + 1 },
        [.detectMsg 480 (480 * v.videoHeight / v.videoWidth)])
    else (s1, [])

/-- The `detection-result` branch of the worker `onmessage` handler:
clear `isProcessing`, record `payload.found`, and either extend the
consecutive-detection streak (capturing and stopping once it reaches
`consecutiveFrames`) or reset it to zero.  Delivered only while a
request is in flight. -/
def handleResult (cfg : CoordConfig) (s : CoordState) (found : Bool)
    (v : VideoInfo) : CoordState × List CoordOutput :=
  if s.inFlight = 0 then (s, [])
  else
    let s1 := { s with
      isProcessing := false
      isTargetDetected := found
      inFlight := s.inFlight - 1 }
    if found then
      let s2 := { s1 with consecutiveDetections := s1.consecutiveDetections + 1 }
      if cfg.consecutiveFrames ≤ s2.consecutiveDetections then
        captureAndStop s2 v
      else (s2, [])
    else ({ s1 with consecutiveDetections := 0 }, [])

/-- One step of the coordinator. -/
def step (cfg : CoordConfig) (s : CoordState) : CoordEvent →
    CoordState × List CoordOutput
  | .startDetect => handleStart s
  | .initDone => handleInitDone s
  | .tick v => handleTick s v
  | .result found v => handleResult cfg s found v
  | .stopDetect => (stopDetectFn s, [])

/-- Run a sequence of events, accumulating the outputs in order. -/
def run (cfg : CoordConfig) (s : CoordState) :
    List CoordEvent → CoordState × List CoordOutput
  | [] => (s, [])
  | e :: es =>
    let r := step cfg s e
    let r' := run cfg r.1 es
    (r'.1, r.2 ++ r'.2)

/-- The states the coordinator can reach from `initialState`. -/
inductive Reachable (cfg : CoordConfig) : CoordState → Prop where
  | init : Reachable cfg initialState
  | next {s : CoordState} (e : CoordEvent) :
      Reachable cfg s → Reachable cfg (step cfg s e).1

/-- Is an output a capture-callback invocation? -/
def isCapture : CoordOutput → Bool
  | .capture _ _ => true
  | _ => false

/-! ## Theorems -/

/-- Claim C1: for every configuration with a positive target ratio, a
positive ratio tolerance and `minAngle < 90` (so that no division in
`_calculateScore` divides by zero), a quadrilateral candidate whose
aspect ratio equals the configured `targetRatio` and whose four interior
angles are each exactly 90 degrees scores exactly
`scoreWeightRatio + scoreWeightAngle`, the maximum attainable value. -/
theorem calculateScore_perfect (opts : DetectOptions)
    (ht : 0 < opts.targetRatio) (htol : 0 < opts.ratioTolerance)
    (hmin : opts.minAngle < 90) :
    calculateScore opts opts.targetRatio [90, 90, 90, 90] =
      opts.scoreWeightRatio + opts.scoreWeightAngle := by
  simp [calculateScore]
  norm_num

/-- Witness for C1 at a concrete configuration satisfying the
hypotheses. -/
theorem calculateScore_perfect_witness :
    calculateScore { targetRatio := 2, ratioTolerance := 1 } 2 [90, 90, 90, 90] =
      ({ targetRatio := 2, ratioTolerance := 1 } : DetectOptions).scoreWeightRatio +
        ({ targetRatio := 2, ratioTolerance := 1 } : DetectOptions).scoreWeightAngle :=
  calculateScore_perfect { targetRatio := 2, ratioTolerance := 1 }
    (by decide) (by decide) (by decide)

/-- Claim C4: for a matched field with nonempty text of length `L` and
bounding box of width `W = x1 - x0`, the produced mask region starts at
`x0 + (W / L) * startIndex`, has the box's height, and has width
`(W / L) * blurCount` when `blurCount > 0`, or the whole box width when
`blurCount = 0`. -/
theorem createMaskRegion_spec (text : List Char) (bbox : BBox) (p : Pattern)
    (h : 0 < text.length) :
    (createMaskRegion text bbox p).x =
        bbox.x0 + (bbox.x1 - bbox.x0) / (text.length : ℚ) * (p.startIndex : ℚ) ∧
    (createMaskRegion text bbox p).y = bbox.y0 ∧
    (createMaskRegion text bbox p).h = bbox.y1 - bbox.y0 ∧
    (p.blurCount ≠ 0 →
      (createMaskRegion text bbox p).w =
        (bbox.x1 - bbox.x0) / (text.length : ℚ) * (p.blurCount : ℚ)) ∧
    (p.blurCount = 0 →
      (createMaskRegion text bbox p).w = bbox.x1 - bbox.x0) := by
  refine ⟨rfl, rfl, rfl, fun hb => ?_, fun hb => ?_⟩ <;>
    simp [createMaskRegion, hb]

/-- Witness for C4 at a concrete field. -/
theorem createMaskRegion_spec_witness :
    0 < ("1234".toList).length ∧
    (createMaskRegion "1234".toList { x0 := 0, y0 := 0, x1 := 8, y1 := 3 }
        { test := fun _ => true, blurCount := 2, startIndex := 1,
          ptype := [], documents := [] }).x =
      (0 : ℚ) + ((8 : ℚ) - 0) / (("1234".toList).length : ℚ) * ((1 : ℕ) : ℚ) :=
  ⟨by decide,
    (createMaskRegion_spec "1234".toList { x0 := 0, y0 := 0, x1 := 8, y1 := 3 }
      { test := fun _ => true, blurCount := 2, startIndex := 1,
        ptype := [], documents := [] } (by decide)).1⟩

/-- Claim C8: `detect` never throws across its public boundary; every
internal pipeline failure is caught and the call returns
`{found: false}` (with no candidate) for that frame.  Totality of
`detect` over both the failing and succeeding pipeline outcomes is the
absence of an escaping exception. -/
theorem detect_error_not_found :
    ∀ (opts : DetectOptions) (e : PipelineError),
      detect opts (Except.error e) = { found := false, candidate := none } :=
  fun _ _ => rfl

/-- Helper: a contour with an interior angle outside
`[minAngle, maxAngle]` leaves the `(bestCandidate, maxScore)` state of
the contour loop unchanged. -/
theorem processContour_angle_reject (opts : DetectOptions)
    (st : Option Candidate × ℚ) (c : Contour)
    (h : ∃ a ∈ c.angles, a < opts.minAngle ∨ opts.maxAngle < a) :
    processContour opts st c = st := by
  obtain ⟨a, ha, hout⟩ := h
  have hfail : ¬(∀ x ∈ c.angles, opts.minAngle ≤ x ∧ x ≤ opts.maxAngle) := by
    intro hall
    rcases hout with h' | h'
    · exact absurd (hall a ha).1 (not_le.mpr h')
    · exact absurd (hall a ha).2 (not_le.mpr h')
  unfold processContour
  split_ifs <;> rfl

/-- Claim C5: a contour whose approximated polygon has an interior angle
outside `[minAngle, maxAngle]` is rejected and never scored: removing it
from the contour list leaves `_findBestCandidate`'s result unchanged,
regardless of its aspect ratio. -/
theorem findBestCandidate_angle_reject (opts : DetectOptions)
    (cs1 cs2 : List Contour) (c : Contour)
    (h : ∃ a ∈ c.angles, a < opts.minAngle ∨ opts.maxAngle < a) :
    findBestCandidate opts (cs1 ++ c :: cs2) =
      findBestCandidate opts (cs1 ++ cs2) := by
  unfold findBestCandidate
  rw [List.foldl_append, List.foldl_append, List.foldl_cons,
    processContour_angle_reject opts _ c h]

/-- Witness for C5: a perfectly card-shaped contour with one 50-degree
corner (below the default `minAngle` of 52) never affects the result. -/
theorem findBestCandidate_angle_reject_witness :
    findBestCandidate {}
        ([] ++ { area := 5000, approxRows := 4, isConvex := true,
                 angles := [50, 90, 90, 90], rectW := 1586, rectH := 1000 } :: []) =
      findBestCandidate {} ([] ++ []) :=
  findBestCandidate_angle_reject {} [] []
    { area := 5000, approxRows := 4, isConvex := true,
      angles := [50, 90, 90, 90], rectW := 1586, rectH := 1000 }
    ⟨50, by decide, by decide⟩

/-- Helper: one iteration of the `combineWords` loop preserves the loop
invariant: every non-first combined index passed the adjacency test
against its predecessor token, a first-combine state has no combined
tokens yet, and at most one token is consumed per iteration. -/
theorem combineStep_combined_inv (words : List Word) (start j : ℕ)
    (acc : CombineAcc)
    (h1 : ∀ k ∈ acc.combined.drop 1,
      canCombineWords (words.getD (k - 1) default) (words.getD k default) = true)
    (h2 : acc.isFirstCombine = true → acc.combined = []) :
    (∀ k ∈ (combineStep words start acc j).combined.drop 1,
      canCombineWords (words.getD (k - 1) default) (words.getD k default) = true) ∧
    ((combineStep words start acc j).isFirstCombine = true →
      (combineStep words start acc j).combined = []) ∧
    (combineStep words start acc j).combined.length ≤ acc.combined.length + 1 := by
  simp only [combineStep]
  split_ifs with hs hl he hf hc
  · exact ⟨h1, h2, Nat.le_succ _⟩
  · exact ⟨h1, h2, Nat.le_succ _⟩
  · refine ⟨?_, by simp, by simp⟩
    intro k hk
    simp at hk
  · refine ⟨?_, by simp, by simp⟩
    intro k hk
    rcases hcm : acc.combined with _ | ⟨a, t⟩
    · rw [hcm] at hk
      simp at hk
    · rw [hcm] at hk
      simp only [List.cons_append, List.drop_succ_cons, List.drop_zero] at hk
      rcases List.mem_append.mp hk with h' | h'
      · exact h1 k (by rw [hcm]; simpa using h')
      · simp only [List.mem_singleton] at h'
        subst h'
        exact hc
  · exact ⟨h1, h2, Nat.le_succ _⟩
  · exact ⟨h1, h2, Nat.le_succ _⟩

/-- Claim C6: for every word list and every starting index, the
token-combination step only ever combines a token with its predecessor
when `canCombineWords` holds for the pair (vertical centers within 10
pixels and horizontal gap at most twice the preceding token's average
character width), and never combines more than `MAX_WORDS_TO_COMBINE`
(3) tokens into one candidate string. -/
theorem combineWords_bounds (words : List Word) (startIndex : ℕ) :
    (combineWords words startIndex).combined.length ≤ MAX_WORDS_TO_COMBINE ∧
    ∀ k ∈ (combineWords words startIndex).combined.drop 1,
      canCombineWords (words.getD (k - 1) default) (words.getD k default) = true := by
  unfold combineWords
  rw [show List.range MAX_WORDS_TO_COMBINE = [0, 1, 2] from rfl]
  simp only [List.foldl_cons, List.foldl_nil]
  have i0 := combineStep_combined_inv words startIndex 0
    { combinedText := []
      combinedBbox := { x0 := 0, y0 := 0, x1 := 0, y1 := 0 }
      isFirstCombine := true
      nextIndex := startIndex
      combined := []
      stopped := false } (by simp) (by simp)
  have i1 := combineStep_combined_inv words startIndex 1 _ i0.1 i0.2.1
  have i2 := combineStep_combined_inv words startIndex 2 _ i1.1 i1.2.1
  refine ⟨?_, i2.1⟩
  have l0 := i0.2.2
  have l1 := i1.2.2
  have l2 := i2.2.2
  simp only [List.length_nil] at l0
  unfold MAX_WORDS_TO_COMBINE
  omega

/-- Helper: `cleanText` leaves no whitespace character. -/
theorem cleanText_no_whitespace (t : List Char) :
    ∀ c ∈ cleanText t, c.isWhitespace = false := by
  intro c hc
  simp only [cleanText, List.mem_filter, Bool.not_eq_true'] at hc
  exact hc.2

/-- Helper: one iteration of the `combineWords` loop keeps the candidate
string whitespace-free (only whitespace-stripped copies of the tokens'
texts are concatenated). -/
theorem combineStep_no_whitespace (words : List Word) (start j : ℕ)
    (acc : CombineAcc)
    (h : ∀ c ∈ acc.combinedText, c.isWhitespace = false) :
    ∀ c ∈ (combineStep words start acc j).combinedText,
      c.isWhitespace = false := by
  simp only [combineStep]
  split_ifs
  · exact h
  · exact h
  · exact fun c hc => cleanText_no_whitespace _ c hc
  · intro c hc
    rcases List.mem_append.mp hc with hc' | hc'
    · exact h c hc'
    · exact cleanText_no_whitespace _ c hc'
  · exact h
  · exact h

/-- Claim C9: `findMaskRegions` is a pure function of its word list and
pattern list — in this value-semantic embedding, two calls on the same
input are definitionally the same regions and the input tokens are
values that cannot be mutated (the source only reads `words` and builds
fresh combined strings and bounding-box copies).  The internal candidate
strings are whitespace-stripped copies: every character of every
combined candidate string is non-whitespace. -/
theorem findMaskRegions_pure (words : List Word) (patterns : List Pattern) :
    findMaskRegions words patterns = findMaskRegions words patterns ∧
    ∀ i : ℕ, ∀ c ∈ (combineWords words i).combinedText,
      c.isWhitespace = false := by
  refine ⟨rfl, fun i => ?_⟩
  unfold combineWords
  rw [show List.range MAX_WORDS_TO_COMBINE = [0, 1, 2] from rfl]
  simp only [List.foldl_cons, List.foldl_nil]
  exact combineStep_no_whitespace words i 2 _
    (combineStep_no_whitespace words i 1 _
      (combineStep_no_whitespace words i 0 _ (by simp)))

/-- Helper: a keyword that is neither contained nor character-scattered
in the text contributes nothing to the score. -/
theorem keywordScore_zero (upper kw : List Char)
    (h1 : strIncludes upper kw = false) (h2 : scatteredIncludes upper kw = false) :
    keywordScore upper kw = 0 := by
  simp [keywordScore, h1, h2]

/-- Helper: a document type none of whose keywords is contained or
character-scattered scores zero. -/
theorem typeScore_zero (upper : List Char) (t : DocumentType)
    (h : ∀ kw ∈ keywords t,
      strIncludes upper kw = false ∧ scatteredIncludes upper kw = false) :
    typeScore upper t = 0 := by
  unfold typeScore
  generalize hl : keywords t = l at h
  have main : ∀ (l' : List (List Char)) (s : ℚ),
      (∀ kw ∈ l',
        strIncludes upper kw = false ∧ scatteredIncludes upper kw = false) →
      l'.foldl (fun sum kw => sum + keywordScore upper kw) s = s := by
    intro l'
    induction l' with
    | nil => intro s _; simp
    | cons kw tl ih =>
        intro s hall
        simp only [List.foldl_cons]
        rw [keywordScore_zero upper kw (hall kw (by simp)).1 (hall kw (by simp)).2,
          add_zero]
        exact ih s (fun k hk => hall k (by simp [hk]))
  exact main l 0 h

/-- Helper: a document type all of whose keywords are contained in the
text scores the number of its keywords. -/
theorem typeScore_all_contained (upper : List Char) (t : DocumentType)
    (h : ∀ kw ∈ keywords t, strIncludes upper kw = true) :
    typeScore upper t = ((keywords t).length : ℚ) := by
  unfold typeScore
  generalize hl : keywords t = l at h
  have main : ∀ (l' : List (List Char)) (s : ℚ),
      (∀ kw ∈ l', strIncludes upper kw = true) →
      l'.foldl (fun sum kw => sum + keywordScore upper kw) s = s + l'.length := by
    intro l'
    induction l' with
    | nil => intro s _; simp
    | cons kw tl ih =>
        intro s hall
        simp only [List.foldl_cons]
        rw [show keywordScore upper kw = 1 by
          simp [keywordScore, hall kw (by simp)]]
        rw [ih (s + 1) (fun k hk => hall k (by simp [hk]))]
        simp only [List.length_cons]
        push_cast
        ring
  rw [main l 0 h]
  ring

/-- Claim C2 fails on the code at a concrete input: the text `"민주"`
contains no keyword of any document type, yet `detectDocumentType`
classifies it as 주민등록증, because the scattered-character fallback
awards 0.5 for the keyword `"주민"` whose characters both occur. -/
theorem detectDocumentType_counterexample :
    (∀ d : DocumentType, ∀ kw ∈ keywords d,
      strIncludes (toUpperJs "민주".toList) kw = false) ∧
    detectDocumentType "민주".toList = some DocumentType.juminDeungnokJeung := by
  constructor
  · decide
  · simp +decide [detectDocumentType, documentTypeOrder, typeScore, keywords,
      keywordScore, toUpperJs, strIncludes, scatteredIncludes]

/-- Claim C2 (amended): if no keyword of any document type is contained
in the text and no keyword has all of its characters occurring in the
text (so the scattered-character fallback also awards nothing), the
classifier returns `none`; and for text that fully contains every
keyword of one document type while every other type's keywords are
neither contained nor character-scattered, that type is returned. -/
theorem detectDocumentType_amended (text : List Char) :
    ((∀ d : DocumentType, ∀ kw ∈ keywords d,
        strIncludes (toUpperJs text) kw = false ∧
        scatteredIncludes (toUpperJs text) kw = false) →
      detectDocumentType text = none) ∧
    (∀ d : DocumentType,
      (∀ kw ∈ keywords d, strIncludes (toUpperJs text) kw = true) →
      (∀ d' : DocumentType, d' ≠ d → ∀ kw ∈ keywords d',
        strIncludes (toUpperJs text) kw = false ∧
        scatteredIncludes (toUpperJs text) kw = false) →
      detectDocumentType text = some d) := by
  constructor
  · intro h
    have hj := typeScore_zero _ _ (h .juminDeungnokJeung)
    have hy := typeScore_zero _ _ (h .yeogwon)
    have hu := typeScore_zero _ _ (h .unjeonMyeonheoJeung)
    simp [detectDocumentType, documentTypeOrder, hj, hy, hu]
  · intro d hin hother
    have hd := typeScore_all_contained _ _ hin
    cases d with
    | juminDeungnokJeung =>
        have hy := typeScore_zero _ _ (hother .yeogwon (by decide))
        have hu := typeScore_zero _ _ (hother .unjeonMyeonheoJeung (by decide))
        simp [detectDocumentType, documentTypeOrder, hd, hy, hu, keywords]
        norm_num
    | yeogwon =>
        have hj := typeScore_zero _ _ (hother .juminDeungnokJeung (by decide))
        have hu := typeScore_zero _ _ (hother .unjeonMyeonheoJeung (by decide))
        simp [detectDocumentType, documentTypeOrder, hd, hj, hu, keywords]
        norm_num
    | unjeonMyeonheoJeung =>
        have hj := typeScore_zero _ _ (hother .juminDeungnokJeung (by decide))
        have hy := typeScore_zero _ _ (hother .yeogwon (by decide))
        simp [detectDocumentType, documentTypeOrder, hd, hj, hy, keywords]

/-- Witness for the amended C2: the empty text classifies as `none`, and
text consisting of exactly the passport keywords classifies as 여권. -/
theorem detectDocumentType_amended_witness :
    detectDocumentType [] = none ∧
    detectDocumentType "PASSPORT여권".toList = some DocumentType.yeogwon :=
  ⟨(detectDocumentType_amended []).1 (by decide),
   (detectDocumentType_amended "PASSPORT여권".toList).2 DocumentType.yeogwon
     (by decide) (by decide)⟩

/-- Claim C3: with `consecutiveFrames = 3` and a playing video, three
consecutive `found:true` detection results make the capture callback
fire exactly once, carrying the full-source-resolution frame (the
video's own `videoWidth × videoHeight`, not the downsampled detection
frame); the detection loop stops and the coordinator returns to the
idle start state.  A `found:false` result (with a request in flight)
resets the consecutive counter to zero. -/
theorem coordinator_capture_scenario (cfg : CoordConfig) (v : VideoInfo)
    (hc : cfg.consecutiveFrames = 3)
    (hp : v.present = true) (hpa : v.paused = false) (he : v.ended = false)
    (hw : 0 < v.videoWidth) :
    (run cfg initialState
        [.startDetect, .initDone, .tick v, .result true v,
         .tick v, .result true v, .tick v, .result true v]).2.filter isCapture =
      [.capture v.videoWidth v.videoHeight] ∧
    (run cfg initialState
        [.startDetect, .initDone, .tick v, .result true v,
         .tick v, .result true v, .tick v, .result true v]).1 = initialState ∧
    (run cfg initialState
        [.startDetect, .initDone, .tick v, .result true v,
         .tick v, .result true v, .tick v, .result true v]).1.status =
      AutoCaptureStatus.idle ∧
    (∀ (s : CoordState) (v' : VideoInfo), 0 < s.inFlight →
      (handleResult cfg s false v').1.consecutiveDetections = 0) := by
  have hw' : v.videoWidth ≠ 0 := Nat.pos_iff_ne_zero.mp hw
  refine ⟨?_, ?_, ?_, ?_⟩
  · simp [run, step, handleStart, handleInitDone, handleTick, handleResult,
      captureAndStop, stopDetectFn, initialState, isCapture, hc, hp, hpa, he, hw']
  · simp [run, step, handleStart, handleInitDone, handleTick, handleResult,
      captureAndStop, stopDetectFn, initialState, isCapture, hc, hp, hpa, he, hw']
  · simp [run, step, handleStart, handleInitDone, handleTick, handleResult,
      captureAndStop, stopDetectFn, initialState, isCapture, hc, hp, hpa, he, hw']
  · intro s v' hs
    simp [handleResult, Nat.pos_iff_ne_zero.mp hs]

/-- Witness for C3 at a concrete configuration and 640×480 video. -/
theorem coordinator_capture_scenario_witness :
    (run ⟨150, 3⟩ initialState
        [.startDetect, .initDone,
         .tick ⟨true, false, false, 640, 480⟩,
         .result true ⟨true, false, false, 640, 480⟩,
         .tick ⟨true, false, false, 640, 480⟩,
         .result true ⟨true, false, false, 640, 480⟩,
         .tick ⟨true, false, false, 640, 480⟩,
         .result true ⟨true, false, false, 640, 480⟩]).2.filter isCapture =
      [.capture 640 480] :=
  (coordinator_capture_scenario ⟨150, 3⟩ ⟨true, false, false, 640, 480⟩
    rfl rfl rfl rfl (by decide)).1

/-- Helper: every reachable coordinator state satisfies the in-flight
accounting invariant: at most one request outstanding, none outstanding
while `isProcessing` is clear or the worker is terminated, and an active
interval implies a live worker. -/
theorem reachable_inflight_inv (cfg : CoordConfig) (s : CoordState)
    (h : Reachable cfg s) :
    s.inFlight ≤ 1 ∧ (s.isProcessing = false → s.inFlight = 0) ∧
    (s.workerAlive = false → s.inFlight = 0) ∧
    (s.intervalActive = true → s.workerAlive = true) := by
  induction h with
  | init => simp [initialState]
  | next e _ ih =>
      cases e with
      | startDetect =>
          simp only [step, handleStart]
          split_ifs <;> simp_all
      | initDone =>
          simp only [step, handleInitDone]
          split_ifs <;> simp_all
      | tick v =>
          simp only [step, handleTick]
          split_ifs <;> simp_all
      | result found v =>
          simp only [step, handleResult, captureAndStop, stopDetectFn]
          split_ifs <;> simp_all [initialState]
      | stopDetect =>
          simp [step, stopDetectFn, initialState]

/-- Claim C7: in every reachable coordinator state at most one detection
request is in flight, and a timer tick while a previous detection is
outstanding — or while the video is absent, paused, ended, or has zero
width — changes nothing and dispatches nothing. -/
theorem coordinator_single_inflight (cfg : CoordConfig) (s : CoordState)
    (h : Reachable cfg s) :
    s.inFlight ≤ 1 ∧
    (∀ v : VideoInfo, s.isProcessing = true → step cfg s (.tick v) = (s, [])) ∧
    (∀ v : VideoInfo,
      v.present = false ∨ v.paused = true ∨ v.ended = true ∨ v.videoWidth = 0 →
      step cfg s (.tick v) = (s, [])) := by
  refine ⟨(reachable_inflight_inv cfg s h).1, ?_, ?_⟩
  · intro v hv
    simp only [step, handleTick]
    split_ifs <;> simp_all
  · intro v hv
    simp only [step, handleTick]
    split_ifs with h1 h2 <;> simp_all

/-- Witness for C7 at the initial state. -/
theorem coordinator_single_inflight_witness :
    initialState.inFlight ≤ 1 ∧
    (∀ v : VideoInfo, initialState.isProcessing = true →
      step { detectionInterval := 150, consecutiveFrames := 3 } initialState
        (.tick v) = (initialState, [])) ∧
    (∀ v : VideoInfo,
      v.present = false ∨ v.paused = true ∨ v.ended = true ∨ v.videoWidth = 0 →
      step { detectionInterval := 150, consecutiveFrames := 3 } initialState
        (.tick v) = (initialState, [])) :=
  coordinator_single_inflight
    { detectionInterval := 150, consecutiveFrames := 3 } initialState
    Reachable.init

/-- Helper: the loop body of `_getAngles` maps two coincident adjacent
vertices (a zero-length edge) to the angle `0` through its explicit
zero-magnitude guard, rather than dividing by zero. -/
theorem cornerAngle_self (p q : ℤ × ℤ) : cornerAngle p p q = 0 := by
  simp [cornerAngle]

/-- Helper: every angle the loop body of `_getAngles` produces lies in
`[0, 180]`: either the zero-magnitude guard fires, or the clamped cosine
is passed to `arccos`, whose range is `[0, π]` radians. -/
theorem cornerAngle_bounds (p1 p2 p3 : ℤ × ℤ) :
    0 ≤ cornerAngle p1 p2 p3 ∧ cornerAngle p1 p2 p3 ≤ 180 := by
  have g : ∀ y : ℝ, 0 ≤ Real.arccos y * 180 / Real.pi ∧
      Real.arccos y * 180 / Real.pi ≤ 180 := by
    intro y
    have h1 := Real.arccos_le_pi y
    have h2 := Real.arccos_nonneg y
    have hpi := Real.pi_pos
    constructor
    · positivity
    · rw [div_le_iff₀ hpi]
      nlinarith
  unfold cornerAngle
  split_ifs with h
  · norm_num
  · exact g _

/-- Claim C10: for every 4-vertex polygon, including degenerate ones
with coincident adjacent vertices, `_getAngles` never divides by zero or
produces an undefined value: it returns exactly 4 angles, each in
`[0, 180]` (a zero-length edge yields `0` through the explicit guard and
the arccosine argument is clamped into `[-1, 1]`), and a polygon with a
coincident adjacent vertex pair always fails the `minAngle` check (for
any positive `minAngle`), so it never becomes a candidate. -/
theorem getAngles_safe (points : List (ℤ × ℤ)) (hlen : points.length = 4) :
    (getAngles points).length = 4 ∧
    (∀ a ∈ getAngles points, 0 ≤ a ∧ a ≤ 180) ∧
    (∀ i : ℕ, i < 4 →
      points.getD i (0, 0) = points.getD ((i + 1) % 4) (0, 0) →
      ∀ minAngle : ℝ, 0 < minAngle →
        ¬(∀ a ∈ getAngles points, minAngle ≤ a)) := by
  refine ⟨by simp [getAngles], ?_, ?_⟩
  · intro a ha
    simp only [getAngles, List.mem_map] at ha
    obtain ⟨i, _, rfl⟩ := ha
    exact cornerAngle_bounds _ _ _
  · intro i hi heq minA hminA hall
    have h0 : angleAt points i = 0 := by
      unfold angleAt
      rw [heq]
      exact cornerAngle_self _ _
    have hmem : angleAt points i ∈ getAngles points := by
      simp only [getAngles, List.mem_map]
      exact ⟨i, by simp [hi], rfl⟩
    have hle := hall _ hmem
    rw [h0] at hle
    exact absurd hle (not_le.mpr hminA)

/-- Witness for C10: the degenerate quadrilateral
`(0,0), (0,0), (10,0), (10,7)` fails the angle check for the default
`minAngle` of 52 degrees. -/
theorem getAngles_safe_witness :
    ¬(∀ a ∈ getAngles [((0 : ℤ), (0 : ℤ)), (0, 0), (10, 0), (10, 7)],
        (52 : ℝ) ≤ a) :=
  (getAngles_safe [((0 : ℤ), (0 : ℤ)), (0, 0), (10, 0), (10, 7)]
      (by decide)).2.2 0 (by decide) (by decide) 52 (by simp)

end OcrPlayground
